import Mathlib

/-!
Verification of the BasisSentry delta-neutral funding-rate arbitrage system.

This file shallowly embeds the core data model and operations of the
repository (executor, selector, risk manager, position store, funding
tracker, reconciler) and proves properties of them.

Modelling conventions:
* Python `Decimal` values are modelled as exact rationals (`ℚ`); the spec
  mandates arbitrary-precision decimal arithmetic for all monetary values.
* Python dicts keyed by symbol are modelled as association lists
  (`List (String × _)`) with `List.lookup` semantics; insertion replaces
  any previous binding of the key.
* `async` calls to the exchange gateway are modelled by passing in a
  script of call outcomes (`Except` for calls that may raise) and
  recording every submitted order request in a gateway log.
* `datetime` values are modelled by their ISO strings / abstract tick
  counts where the code only stores and reloads them.
-/

namespace BasisSentry

/-- Replace (or insert) the binding of key `k` in an association list,
modelling Python `d[k] = v`. -/
def setKey {β : Type} (l : List (String × β)) (k : String) (v : β) :
    List (String × β) :=
  (k, v) :: l.filter (fun e => !(e.1 == k))

/-- Delete the binding of key `k`, modelling Python `del d[k]`. -/
def delKey {β : Type} (l : List (String × β)) (k : String) :
    List (String × β) :=
  l.filter (fun e => !(e.1 == k))

theorem lookup_filter_ne {β : Type} (l : List (String × β)) (k k' : String) :
    (l.filter (fun e => !(e.1 == k))).lookup k'
      = if k' = k then none else l.lookup k' := by
  induction l with
  | nil => simp
  | cons e t ih =>
    rcases e with ⟨a, b⟩
    by_cases hek : a = k
    · subst hek
      simp only [List.filter_cons, beq_self_eq_true, Bool.not_true,
        Bool.false_eq_true, if_false, ih]
      by_cases h : k' = a
      · subst h; simp
      · simp [List.lookup, beq_false_of_ne h]
    · have : ((a, b).1 == k) = false := beq_false_of_ne hek
      simp only [List.filter_cons, this, Bool.not_false, if_true]
      by_cases h : k' = a
      · subst h
        have hk : k' ≠ k := hek
        simp [List.lookup, hk]
      · simp [List.lookup, beq_false_of_ne h, ih]

theorem lookup_setKey_self {β : Type} (l : List (String × β)) (k : String)
    (v : β) : (setKey l k v).lookup k = some v := by
  simp [setKey, List.lookup]

theorem lookup_setKey_ne {β : Type} (l : List (String × β)) (k k' : String)
    (v : β) (h : k' ≠ k) : (setKey l k v).lookup k' = l.lookup k' := by
  simp [setKey, List.lookup, beq_false_of_ne h, lookup_filter_ne, h]

theorem lookup_delKey_self {β : Type} (l : List (String × β)) (k : String) :
    (delKey l k).lookup k = none := by
  simp [delKey, lookup_filter_ne]

theorem lookup_delKey_ne {β : Type} (l : List (String × β)) (k k' : String)
    (h : k' ≠ k) : (delKey l k).lookup k' = l.lookup k' := by
  simp [delKey, lookup_filter_ne, h]

/-! ## Exchange data model (src/exchange/base.py) -/

/-- Order side (`OrderSide`). -/
inductive OrderSide
  | buy
  | sell
deriving DecidableEq, Repr

/-- Order type (`OrderType`). -/
inductive OrderType
  | market
  | limit
deriving DecidableEq, Repr

/-- An executed order (`Order`); only the fields the core reads are kept.
Monetary fields are `Decimal`, modelled as `ℚ`. -/
structure Order where
  price : ℚ
  filled : ℚ
  fee : Option ℚ := none
deriving DecidableEq, Repr

/-! ## ArbitragePosition (src/strategy/executor.py) -/

/-- A two-leg arbitrage position (`ArbitragePosition`).  `opened_at` is an
abstract timestamp tick. -/
structure ArbitragePosition where
  symbol : String
  base_currency : String
  spot_qty : ℚ := 0
  spot_avg_price : ℚ := 0
  spot_value : ℚ := 0
  perp_qty : ℚ := 0
  perp_avg_price : ℚ := 0
  perp_value : ℚ := 0
  funding_earned : ℚ := 0
  leverage : ℕ := 2
  opened_at : Option ℕ := none
  funding_periods : ℕ := 0
  orders : List Order := []
deriving DecidableEq, Repr

/-- `ArbitragePosition.notional_value`. -/
def ArbitragePosition.notional_value (p : ArbitragePosition) : ℚ :=
  max |p.spot_value| |p.perp_value|

/-- `ArbitragePosition.delta`; Python `spot_qty or perp_qty` picks
`perp_qty` when `spot_qty` is zero. -/
def ArbitragePosition.delta (p : ArbitragePosition) : ℚ :=
  if p.notional_value = 0 then 0
  else (p.spot_qty + p.perp_qty)
    / |if p.spot_qty = 0 then p.perp_qty else p.spot_qty|

/-- `ArbitragePosition.total_cost`: sum of the recorded orders' fees,
a missing fee counting as 0. -/
def ArbitragePosition.total_cost (p : ArbitragePosition) : ℚ :=
  (p.orders.map (fun o => o.fee.getD 0)).sum

/-! ## Helpers (src/utils/helpers.py) -/

/-- `estimate_profit` (net-profit field of the returned dict): funding
income over `periods` settlements minus open and close fees. -/
def estimate_profit_net (position_value funding_rate : ℚ) (periods : ℕ)
    (spot_fee : ℚ := 1/1000) (perp_fee : ℚ := 4/10000) : ℚ :=
  position_value * |funding_rate| * periods
    - position_value * (spot_fee + perp_fee)
    - position_value * (spot_fee + perp_fee)

/-- Round to the nearest integer, ties to even (Python
`ROUND_HALF_EVEN`; IEEE round-to-nearest-even on a scaled significand). -/
def roundHalfEven (x : ℚ) : ℤ :=
  let f := ⌊x⌋
  if x - f < 1/2 then f
  else if 1/2 < x - f then f + 1
  else if 2 ∣ f then f else f + 1

/-- Round a positive rational to `prec` significant decimal digits with
`ROUND_HALF_EVEN`. -/
def roundSigDigitsPos (prec : ℕ) (x : ℚ) : ℚ :=
  let e : ℤ := Int.log 10 x - ((prec : ℤ) - 1)
  ((roundHalfEven (x / (10:ℚ) ^ e) : ℤ) : ℚ) * (10:ℚ) ^ e

/-- The result of one Python `Decimal` arithmetic operation at the
default context: 28 significant digits, `ROUND_HALF_EVEN`. -/
def dec28 (x : ℚ) : ℚ :=
  if x = 0 then 0
  else if 0 < x then roundSigDigitsPos 28 x
  else -roundSigDigitsPos 28 (-x)

/-- Round a positive rational to the nearest binary64 double (round to
nearest, ties to even; the exponent is clamped at −1022 so subnormals
are spaced correctly); `none` models the overflow to infinity, on which
the subsequent `math.ceil` raises `OverflowError`. -/
def roundB64Pos (x : ℚ) : Option ℚ :=
  let e : ℤ := max (Int.log 2 x) (-1022) - 52
  let r : ℚ := ((roundHalfEven (x / (2:ℚ) ^ e) : ℤ) : ℚ) * (2:ℚ) ^ e
  if (2:ℚ) ^ (1024 : ℤ) ≤ r then none else some r

/-- Python `float(d)` of a `Decimal` value: the correctly rounded
binary64 double. -/
def toFloat (x : ℚ) : Option ℚ :=
  if x = 0 then some 0
  else if 0 < x then roundB64Pos x
  else (roundB64Pos (-x)).map (fun y => -y)

/-- `breakeven_periods`: settlements needed for funding income to cover
the round-trip fee.  Faithful to the source: the fee arithmetic and the
quotient go through `Decimal` context rounding (28 significant digits),
the quotient is then converted to a binary64 float and `math.ceil` is
applied to that float.  `some ⊤` is the `float("inf")` return at rate
zero; `none` is the `OverflowError` raised when the float conversion of
a huge quotient overflows. -/
def breakeven_periods (funding_rate : ℚ)
    (spot_fee : ℚ := 1/1000) (perp_fee : ℚ := 4/10000) :
    Option (WithTop ℤ) :=
  if |funding_rate| = 0 then some ⊤
  else
    let total_fee := dec28 (dec28 (spot_fee + perp_fee) * 2)
    let periods := dec28 (total_fee / |funding_rate|)
    (toFloat periods).map (fun f => ((⌈f⌉ : ℤ) : WithTop ℤ))

/-! ## Pool and PoolSelector (src/strategy/selector.py) -/

/-- A candidate trading pool (`Pool`). -/
structure Pool where
  symbol : String
  funding_rate : ℚ
  predicted_rate : ℚ := 0
  price : ℚ
  volume_24h : ℚ
  depth_05pct : ℚ
  spread : ℚ
  expected_profit : Option ℚ := none
  breakeven_nr : Option (Option (WithTop ℤ)) := none
  score : Option ℚ := none
deriving DecidableEq, Repr

/-- Python `symbol.split("/")[0]`: the part of the symbol before the
first `/` (the whole symbol when there is none). -/
def baseOfSymbol (s : String) : String :=
  String.mk (s.data.takeWhile (fun c => !(c == '/')))

/-- `Pool.base_currency`. -/
def Pool.base_currency (p : Pool) : String :=
  baseOfSymbol p.symbol

/-- Selector filter parameters (`PoolSelector.__init__` reading
`config.filter_config`, plus `config.allow_negative_rates`). -/
structure FilterConfig where
  min_volume : ℚ
  max_volume : ℚ
  min_depth : ℚ
  min_rate : ℚ
  max_spread : ℚ
  blacklist : List String
  allow_negative_rates : Bool
deriving Repr

/-- One pool passes the filter chain of `PoolSelector.filter`:
blacklist, negative-rate policy, volume window, depth floor, rate floor,
spread ceiling; each `continue` in the source is a conjunct here. -/
def passesFilter (cfg : FilterConfig) (pool : Pool) : Bool :=
  !(cfg.blacklist.contains pool.base_currency)
  && (cfg.allow_negative_rates || decide (0 ≤ pool.funding_rate))
  && decide (cfg.min_volume ≤ pool.volume_24h)
  && decide (pool.volume_24h ≤ cfg.max_volume)
  && decide (cfg.min_depth ≤ pool.depth_05pct)
  && decide (cfg.min_rate ≤ |pool.funding_rate|)
  && decide (pool.spread ≤ cfg.max_spread)

/-- `PoolSelector._calc_metrics`: expected profit at 1000 USDT over
3 periods, breakeven periods, and the composite score. -/
def calcMetrics (cfg : FilterConfig) (pool : Pool) : Pool :=
  let rate_score := |pool.funding_rate| * 1000
  let liquidity_score := min (pool.depth_05pct / cfg.min_depth) 5 / 5
  let spread_score := 1 - pool.spread / cfg.max_spread
  { pool with
      expected_profit := some (estimate_profit_net 1000 pool.funding_rate 3)
      breakeven_nr := some (breakeven_periods pool.funding_rate)
      score := some (rate_score * liquidity_score * spread_score) }

/-- `PoolSelector.filter`: keep pools passing the chain, compute their
metrics, and stably sort by score descending (`list.sort` with
`reverse=True` on the score key). -/
def PoolSelector.filter (cfg : FilterConfig) (pools : List Pool) :
    List Pool :=
  ((pools.filter (passesFilter cfg)).map (calcMetrics cfg)).mergeSort
    (fun a b => decide ((b.score.getD 0) ≤ (a.score.getD 0)))

/-! ## PositionStore (src/core/position_store.py)

`save` serialises a position into a JSON dict (Decimal fields through
`str`, `opened_at` through `isoformat`, and crucially *without* the
`orders` list); `load_all` rebuilds `ArbitragePosition`s from those dicts,
so `orders` always comes back as the dataclass default `[]`.  `str`/
`Decimal` and `isoformat`/`fromisoformat` round-trips are exact, so the
serialised fields are modelled by their values. -/

/-- The per-symbol dict written to `positions.json` by `PositionStore.save`. -/
structure PosDict where
  symbol : String
  base_currency : String
  spot_qty : ℚ
  spot_avg_price : ℚ
  spot_value : ℚ
  perp_qty : ℚ
  perp_avg_price : ℚ
  perp_value : ℚ
  funding_earned : ℚ
  leverage : ℕ
  opened_at : Option ℕ
  funding_periods : ℕ
deriving DecidableEq, Repr

/-- The dict built inside `PositionStore.save`. -/
def posToDict (p : ArbitragePosition) : PosDict :=
  { symbol := p.symbol
    base_currency := p.base_currency
    spot_qty := p.spot_qty
    spot_avg_price := p.spot_avg_price
    spot_value := p.spot_value
    perp_qty := p.perp_qty
    perp_avg_price := p.perp_avg_price
    perp_value := p.perp_value
    funding_earned := p.funding_earned
    leverage := p.leverage
    opened_at := p.opened_at
    funding_periods := p.funding_periods }

/-- The `ArbitragePosition` rebuilt from one dict in
`PositionStore.load_all`; `orders` is not part of the dict and takes its
dataclass default `[]`. -/
def dictToPos (d : PosDict) : ArbitragePosition :=
  { symbol := d.symbol
    base_currency := d.base_currency
    spot_qty := d.spot_qty
    spot_avg_price := d.spot_avg_price
    spot_value := d.spot_value
    perp_qty := d.perp_qty
    perp_avg_price := d.perp_avg_price
    perp_value := d.perp_value
    funding_earned := d.funding_earned
    leverage := d.leverage
    opened_at := d.opened_at
    funding_periods := d.funding_periods
    orders := [] }

/-- The persisted position file: symbol-keyed dict set. -/
abbrev StoreFile := List (String × PosDict)

/-- `PositionStore.save`. -/
def PositionStore.save (store : StoreFile) (p : ArbitragePosition) :
    StoreFile :=
  setKey store p.symbol (posToDict p)

/-- `PositionStore.load_all`. -/
def PositionStore.load_all (store : StoreFile) :
    List (String × ArbitragePosition) :=
  store.map (fun e => (e.1, dictToPos e.2))

/-- `PositionStore.remove`. -/
def PositionStore.remove (store : StoreFile) (symbol : String) : StoreFile :=
  delKey store symbol

/-! ## Executor (src/strategy/executor.py)

Gateway calls are modelled by a script of outcomes; every order request
actually submitted to the exchange is appended to a gateway log, and the
symbol-keyed leverage settings record `set_leverage` calls. -/

/-- An order request submitted to the exchange gateway. -/
inductive OrderReq
  | spot (symbol : String) (side : OrderSide) (amount : ℚ) (t : OrderType)
  | perp (symbol : String) (side : OrderSide) (amount : ℚ) (t : OrderType)
      (reduceOnly : Bool)
deriving DecidableEq, Repr

/-- Exchange-side state touched by the executor. -/
structure Gateway where
  leverage : List (String × ℕ) := []
  log : List OrderReq := []
deriving DecidableEq, Repr

/-- Local state of the trading process: the executor's in-memory position
map and the persisted position file. -/
structure ExecState where
  positions : List (String × ArbitragePosition) := []
  store : StoreFile := []
  gateway : Gateway := {}
deriving DecidableEq, Repr

/-- Relevant configuration (`config.default_leverage`,
`config.delta_tolerance`). -/
structure Config where
  default_leverage : ℕ := 2
  delta_tolerance : ℚ := 5/100
deriving Repr

/-- Outcomes of the gateway calls `open_arbitrage` may issue:
`set_leverage`, the two legs, the compensation order, and the
persistence call.  A `false`/`error` entry means that call raised. -/
structure OpenScript where
  leverage_ok : Bool := true
  spot : Except String Order
  perp : Except String Order
  comp_ok : Bool := true
  save_ok : Bool := true
deriving Repr

/-- `Executor.open_arbitrage`.  Mirrors the source control flow: set
leverage, reject non-positive funding rates, submit both market legs
concurrently, then commit, do nothing, or compensate the filled leg. -/
def Executor.open_arbitrage (cfg : Config) (st : ExecState) (pool : Pool)
    (size_usdt : ℚ) (script : OpenScript) (now : ℕ) :
    ExecState × Option ArbitragePosition :=
  let base := pool.base_currency
  let spot_symbol := base ++ "/USDT"
  let perp_symbol := pool.symbol
  let qty := size_usdt / pool.price
  -- set_leverage: on failure the outer except returns None.
  if script.leverage_ok = false then (st, none)
  else
    let gw1 : Gateway :=
      { st.gateway with
          leverage := setKey st.gateway.leverage perp_symbol
            cfg.default_leverage }
    let st1 := { st with gateway := gw1 }
    -- Negative/zero rates are rejected (no borrowed-asset shorting).
    if pool.funding_rate ≤ 0 then (st1, none)
    else
      -- Both market legs are submitted concurrently.
      let gw2 : Gateway :=
        { gw1 with
            log := gw1.log
              ++ [OrderReq.spot spot_symbol OrderSide.buy qty OrderType.market,
                  OrderReq.perp perp_symbol OrderSide.sell qty OrderType.market
                    false] }
      let st2 := { st1 with gateway := gw2 }
      match script.spot, script.perp with
      | Except.error _, Except.error _ => (st2, none)
      | Except.error _, Except.ok perp_order =>
          -- Spot failed: compensate by market-closing the filled perp;
          -- a failing compensation is only logged.
          let gw3 : Gateway :=
            { gw2 with
                log := gw2.log
                  ++ [OrderReq.perp perp_symbol OrderSide.buy
                        perp_order.filled OrderType.market false] }
          ({ st2 with gateway := gw3 }, none)
      | Except.ok spot_order, Except.error _ =>
          -- Perp failed: compensate by market-selling the filled spot.
          let gw3 : Gateway :=
            { gw2 with
                log := gw2.log
                  ++ [OrderReq.spot spot_symbol OrderSide.sell
                        spot_order.filled OrderType.market] }
          ({ st2 with gateway := gw3 }, none)
      | Except.ok spot_order, Except.ok perp_order =>
          let position : ArbitragePosition :=
            { symbol := perp_symbol
              base_currency := base
              spot_qty := spot_order.filled
              spot_avg_price := spot_order.price
              spot_value := spot_order.filled * spot_order.price
              perp_qty := -perp_order.filled
              perp_avg_price := perp_order.price
              perp_value := perp_order.filled * perp_order.price
              leverage := cfg.default_leverage
              opened_at := some now
              orders := [spot_order, perp_order] }
          let ps := setKey st2.positions perp_symbol position
          -- A failing persistence call is caught and only logged.
          let store' := if script.save_ok
            then PositionStore.save st2.store position else st2.store
          ({ st2 with positions := ps, store := store' }, some position)

/-- Outcomes of the two unwind legs of `close_arbitrage` and of the
persisted-store removal. -/
structure CloseScript where
  spot : Except String Order
  perp : Except String Order
  remove_ok : Bool := true
deriving Repr

/-- `Executor.close_arbitrage`: concurrently sell the spot quantity and
reduce-only buy back the perp quantity; `asyncio.gather` without
`return_exceptions` propagates either leg's exception to the outer
handler, which returns `None` and leaves the position tracked. -/
def Executor.close_arbitrage (st : ExecState) (symbol : String)
    (script : CloseScript) : ExecState × Option ℚ :=
  match st.positions.lookup symbol with
  | none => (st, none)
  | some position =>
    let spot_symbol := position.base_currency ++ "/USDT"
    let gw1 : Gateway :=
      { st.gateway with
          log := st.gateway.log
            ++ [OrderReq.spot spot_symbol OrderSide.sell position.spot_qty
                  OrderType.market,
                OrderReq.perp symbol OrderSide.buy |position.perp_qty|
                  OrderType.market true] }
    match script.spot, script.perp with
    | Except.ok spot_order, Except.ok perp_order =>
        let position' :=
          { position with orders := position.orders ++ [spot_order, perp_order] }
        let spot_pnl := (spot_order.price - position.spot_avg_price)
          * position.spot_qty
        let perp_pnl := (position.perp_avg_price - perp_order.price)
          * |position.perp_qty|
        let total_pnl := spot_pnl + perp_pnl + position.funding_earned
          - position'.total_cost
        let ps := delKey st.positions symbol
        -- A failing persisted-store removal is caught and only logged.
        let store' := if script.remove_ok
          then PositionStore.remove st.store symbol else st.store
        ({ st with positions := ps, store := store', gateway := gw1 },
          some total_pnl)
    | _, _ => ({ st with gateway := gw1 }, none)

/-! ## RiskManager (src/core/risk.py) -/

/-- `RiskAction`. -/
inductive RiskAction
  | hold
  | reduce
  | close
  | rebalance
deriving DecidableEq, Repr

/-- `RiskCheckResult` (the reason string is kept abstractly). -/
structure RiskCheckResult where
  action : RiskAction
  reason : String := ""
  severity : ℕ := 0
deriving DecidableEq, Repr

/-- Risk thresholds read from `config.risk_config` in
`RiskManager.__init__`. -/
structure RiskConfig where
  margin_warning : ℚ := 1/2
  margin_danger : ℚ := 7/20
  margin_close : ℚ := 1/4
  rate_reversal_periods : ℕ := 2
  rate_reversal_threshold : ℚ := 1/10000
  delta_tolerance : ℚ := 5/100
deriving Repr

/-- The per-symbol funding-rate history `RiskManager._rate_history`. -/
abbrev RateHistory := List (String × List ℚ)

/-- History update inside `_check_rate_reversal`: append the new rate and
pop the oldest entry once the length exceeds `watch_periods + 1`. -/
def updateHistory (watch_periods : ℕ) (history : List ℚ) (rate : ℚ) :
    List ℚ :=
  let h := history ++ [rate]
  if watch_periods + 1 < h.length then h.tail else h

/-- `RiskManager._check_rate_reversal` on one symbol's history list:
returns the updated history and the check result. -/
def checkRateReversalH (cfg : RiskConfig) (history : List ℚ) (rate : ℚ) :
    List ℚ × RiskCheckResult :=
  let h := updateHistory cfg.rate_reversal_periods history rate
  if h.length < cfg.rate_reversal_periods + 1 then
    (h, { action := RiskAction.hold })
  else
    let initial_rate := h.headD 0
    let recent_rates := h.tail
    if 0 < initial_rate then
      if recent_rates.all (fun r => decide (r < -cfg.rate_reversal_threshold))
      then (h, { action := RiskAction.close, reason := "rate reversal",
                 severity := 7 })
      else (h, { action := RiskAction.hold })
    else
      if recent_rates.all (fun r => decide (cfg.rate_reversal_threshold < r))
      then (h, { action := RiskAction.close, reason := "rate reversal",
                 severity := 7 })
      else (h, { action := RiskAction.hold })

/-- `RiskManager._check_rate_reversal` with the symbol-keyed history map
(`setdefault` reads `[]` for an unseen symbol). -/
def checkRateReversal (cfg : RiskConfig) (st : RateHistory) (symbol : String)
    (rate : ℚ) : RateHistory × RiskCheckResult :=
  let history := (st.lookup symbol).getD []
  let res := checkRateReversalH cfg history rate
  (setKey st symbol res.1, res.2)

/-- `RiskManager._check_margin_ratio`. -/
def checkMarginRatio (cfg : RiskConfig) (margin_ratio : ℚ) :
    RiskCheckResult :=
  if margin_ratio < cfg.margin_close then
    { action := RiskAction.close, reason := "margin below close line",
      severity := 10 }
  else if margin_ratio < cfg.margin_danger then
    { action := RiskAction.reduce, reason := "margin below danger line",
      severity := 8 }
  else { action := RiskAction.hold }

/-- `RiskManager._check_delta`. -/
def checkDelta (cfg : RiskConfig) (position : ArbitragePosition) :
    RiskCheckResult :=
  if cfg.delta_tolerance * 2 < |position.delta| then
    { action := RiskAction.rebalance, reason := "delta drift",
      severity := 6 }
  else { action := RiskAction.hold }

/-- `RiskManager._check_position_loss`: an explicit placeholder that
always holds. -/
def checkPositionLoss (_position : ArbitragePosition) : RiskCheckResult :=
  { action := RiskAction.hold }

/-- `RiskManager.check`: the fixed-priority rule chain (margin ratio,
delta, rate reversal, per-position loss), returning the first non-HOLD
result. -/
def RiskManager.check (cfg : RiskConfig) (st : RateHistory)
    (position : ArbitragePosition) (current_rate : Option ℚ)
    (margin_ratio : Option ℚ) : RateHistory × RiskCheckResult :=
  let mres := match margin_ratio with
    | some m => checkMarginRatio cfg m
    | none => { action := RiskAction.hold }
  if mres.action ≠ RiskAction.hold then (st, mres)
  else
    let dres := checkDelta cfg position
    if dres.action ≠ RiskAction.hold then (st, dres)
    else
      let afterRate := match current_rate with
        | some rate => checkRateReversal cfg st position.symbol rate
        | none => (st, { action := RiskAction.hold })
      if afterRate.2.action ≠ RiskAction.hold then afterRate
      else
        let lres := checkPositionLoss position
        if lres.action ≠ RiskAction.hold then (afterRate.1, lres)
        else (afterRate.1,
          { action := RiskAction.hold, reason := "All checks passed" })

/-- Feed a sequence of observed funding rates for one position through
`RiskManager.check` (margin ratio unavailable), collecting the results. -/
def runRates (cfg : RiskConfig) (position : ArbitragePosition)
    (rates : List ℚ) : List RiskCheckResult :=
  (rates.foldl
    (fun acc rate =>
      let step := RiskManager.check cfg acc.1 position (some rate) none
      (step.1, acc.2 ++ [step.2]))
    ((([] : RateHistory), ([] : List RiskCheckResult)))).2

/-! ## FundingTracker (src/core/funding_tracker.py)

The ledger rows are the dicts stored in `funding_log.json`; `Decimal`
fields round-trip exactly through `str`.  `sync_remote_payments` keys
de-duplication on `(symbol, timestamp, income)`, where the key uses the
payment's raw ISO string but the stored row's timestamp has been
normalised through `datetime.fromisoformat(...).isoformat()`; that
normalisation is modelled by an abstract function `canon`, with `none`
meaning `fromisoformat` raised. -/

/-- One ledger row (`FundingRecord.to_dict`). -/
structure FundingRecDict where
  symbol : String
  rate : ℚ
  position_value : ℚ
  income : ℚ
  timestamp : String
deriving DecidableEq, Repr

/-- The `timestamp` field of a remote payment dict: a `datetime` (carried
as its exact `isoformat` string), an ISO string, or anything else
(skipped by the sync). -/
inductive TsField
  | dt (iso : String)
  | str (s : String)
  | invalid
deriving DecidableEq, Repr

/-- A remote funding payment as produced by the exchange adapter. -/
structure Payment where
  symbol : String
  ts : TsField
  income : ℚ := 0
  rate : ℚ := 0
  position_value : ℚ := 0
deriving DecidableEq, Repr

/-- The `ts_iso` string used in the de-duplication key (`none`: invalid
timestamp, the payment is skipped).  For a `datetime` it is its
`isoformat`. -/
def tsIso : TsField → Option String
  | TsField.dt iso => some iso
  | TsField.str s => some s
  | TsField.invalid => none

/-- The timestamp stored in the appended row:
`datetime.fromisoformat(ts_iso).isoformat()`.  For a `datetime` payment
this round-trips to the original `isoformat` exactly; for a string it is
`canon s`, `none` meaning `fromisoformat` raised. -/
def storedTs (canon : String → Option String) : TsField → Option String
  | TsField.dt iso => some iso
  | TsField.str s => canon s
  | TsField.invalid => none

/-- De-duplication key of a stored ledger row. -/
def recKey (r : FundingRecDict) : String × String × ℚ :=
  (r.symbol, r.timestamp, r.income)

/-- The ledger row appended for one accepted payment (its `timestamp` is
the normalised one). -/
def paymentRow (p : Payment) (t : String) : FundingRecDict :=
  { symbol := p.symbol, rate := p.rate,
    position_value := p.position_value,
    income := p.income, timestamp := t }

/-- The loop body of `FundingTracker.sync_remote_payments`; `none`
models an uncaught `fromisoformat` exception (the ledger file is then
left unwritten). -/
def syncGo (canon : String → Option String) (recs : List FundingRecDict)
    (keys : List (String × String × ℚ)) (added : ℕ) :
    List Payment → Option (List FundingRecDict × ℕ)
  | [] => some (recs, added)
  | p :: rest =>
    match tsIso p.ts with
    | none => syncGo canon recs keys added rest
    | some ts_iso =>
      let key := (p.symbol, ts_iso, p.income)
      if key ∈ keys then syncGo canon recs keys added rest
      else
        match storedTs canon p.ts with
        | none => none
        | some t =>
          syncGo canon (recs ++ [paymentRow p t])
            (key :: keys) (added + 1) rest

/-- `FundingTracker.sync_remote_payments`. -/
def FundingTracker.sync_remote_payments (canon : String → Option String)
    (records : List FundingRecDict) (payments : List Payment) :
    Option (List FundingRecDict × ℕ) :=
  if payments = [] then some (records, 0)
  else syncGo canon records (records.map recKey) 0 payments

/-- An exchange payment has a canonical timestamp: its ISO string is a
fixed point of `fromisoformat ∘ isoformat` (true of every string the
adapters emit, which are themselves `isoformat` outputs). -/
def canonicalTs (canon : String → Option String) : TsField → Prop
  | TsField.str s => canon s = some s
  | _ => True

/-! ## Reconciler (scripts/auto_trade.py) -/

/-- An exchange-reported perp position (the fields of
`p['info']` that `sync_orphan_positions` reads). -/
structure PerpData where
  symbol : String
  positionAmt : ℚ
  entryPrice : ℚ
  leverage : ℕ
deriving DecidableEq, Repr

/-- State threaded through `sync_orphan_positions`. -/
structure OrphanState where
  positions : List (String × ArbitragePosition)
  store : StoreFile
  adopted : List String := []
deriving DecidableEq, Repr

/-- The position adopted for an orphaned exchange perp position
(`new_pos` in `sync_orphan_positions`): the target spot quantity is the
perp quantity, and the unknown spot purchase price is approximated by the
perp entry price. -/
def orphanPos (p : PerpData) (now : ℕ) : ArbitragePosition :=
  { symbol := p.symbol
    base_currency := baseOfSymbol p.symbol
    spot_qty := |p.positionAmt|
    spot_avg_price := p.entryPrice
    spot_value := |p.positionAmt| * p.entryPrice
    perp_qty := p.positionAmt
    perp_avg_price := p.entryPrice
    perp_value := p.positionAmt * p.entryPrice
    leverage := p.leverage
    opened_at := some now }

/-- Loop body of `AutoTrader.sync_orphan_positions` for one
exchange-reported perp position; `bals` maps a base asset to its free
spot balance.  Nonzero filter, already-tracked skip, then adopt when the
free spot balance covers at least 90% of the perp quantity. -/
def syncOrphanStep (bals : List (String × ℚ)) (now : ℕ)
    (acc : OrphanState) (p : PerpData) : OrphanState :=
  if p.positionAmt = 0 then acc
  else if (acc.positions.lookup p.symbol).isSome then acc
  else if |p.positionAmt| * (9/10)
      ≤ (bals.lookup (baseOfSymbol p.symbol)).getD 0 then
    { positions := setKey acc.positions p.symbol (orphanPos p now)
      store := PositionStore.save acc.store (orphanPos p now)
      adopted := acc.adopted ++ [p.symbol] }
  else acc

/-- `AutoTrader.sync_orphan_positions`. -/
def sync_orphan_positions (positions : List (String × ArbitragePosition))
    (store : StoreFile) (perps : List PerpData)
    (bals : List (String × ℚ)) (now : ℕ) : OrphanState :=
  perps.foldl (syncOrphanStep bals now)
    { positions := positions, store := store }

/-- Spot balance entry of `fetch_balance()` for one asset. -/
structure SpotBal where
  free : ℚ := 0
  total : ℚ := 0
deriving DecidableEq, Repr

/-- State threaded through `verify_and_fix_positions`. -/
structure VerifyState where
  positions : List (String × ArbitragePosition)
  store : StoreFile
  log : List OrderReq := []
  issues : List String := []
deriving DecidableEq, Repr

/-- Loop body of `AutoTrader.verify_and_fix_positions` for one locally
tracked position.  `fixOk s` says whether the repair market order for
symbol `s` fills (when it raises, the local records are left in place).
The subsequent `position_store.delete(symbol)` call raises
`AttributeError` — `PositionStore` has no `delete` method — and the
surrounding `except` swallows it, so the persisted store is never
modified. -/
def verifyFixStep (fixOk : String → Bool) (perps : List (String × ℚ))
    (bals : List (String × SpotBal)) (acc : VerifyState)
    (entry : String × ArbitragePosition) : VerifyState :=
  let symbol := entry.1
  let pos := entry.2
  let base := pos.base_currency
  let perp_amt := (perps.lookup symbol).getD 0
  let has_perp : Bool := decide ((1:ℚ)/1000 < |perp_amt|)
  let bal := (bals.lookup base).getD {}
  let has_spot : Bool := decide (pos.spot_qty * (9/10) ≤ bal.total)
  if has_perp && has_spot then acc
  else
    let acc1 := { acc with issues := acc.issues ++ [symbol] }
    if has_perp && !has_spot then
      -- orphaned perp: market-close it
      if fixOk symbol then
        { acc1 with
            log := acc1.log
              ++ [OrderReq.perp symbol
                    (if perp_amt < 0 then OrderSide.buy else OrderSide.sell)
                    |perp_amt| OrderType.market false]
            positions := delKey acc1.positions symbol }
      else acc1
    else if has_spot && !has_perp then
      -- orphaned spot: market-sell the whole balance
      if fixOk symbol then
        { acc1 with
            log := acc1.log
              ++ [OrderReq.spot (base ++ "/USDT") OrderSide.sell bal.total
                    OrderType.market]
            positions := delKey acc1.positions symbol }
      else acc1
    else
      -- both legs missing: no order, just drop the in-memory record
      { acc1 with positions := delKey acc1.positions symbol }

/-- `AutoTrader.verify_and_fix_positions`: iterate over a snapshot of the
tracked positions; an alert is sent whenever `issues` is non-empty. -/
def verify_and_fix_positions (fixOk : String → Bool)
    (perps : List (String × ℚ)) (bals : List (String × SpotBal))
    (positions : List (String × ArbitragePosition)) (store : StoreFile) :
    VerifyState :=
  positions.foldl (verifyFixStep fixOk perps bals)
    { positions := positions, store := store }

/-! ## Concrete instances used by witnesses and counterexamples -/

/-- Strict-mode selector parameters (spec scenario 1). -/
def cfgW : FilterConfig :=
  { min_volume := 500000, max_volume := 5000000, min_depth := 10000,
    min_rate := 3/10000, max_spread := 5/1000, blacklist := ["SCAM"],
    allow_negative_rates := false }

/-- A pool passing every filter (spec scenario 1: rate +0.006,
depth 20000, spread 0.001). -/
def poolW : Pool :=
  { symbol := "AAA/USDT:USDT", funding_rate := 3/500, price := 2,
    volume_24h := 1000000, depth_05pct := 20000, spread := 1/1000 }

/-- A pool with zero funding rate (negative-rate-arbitrage request). -/
def poolNeg : Pool :=
  { symbol := "NNN/USDT:USDT", funding_rate := 0, price := 1,
    volume_24h := 1000000, depth_05pct := 20000, spread := 1/1000 }

/-- A filled spot order: 2 units at 50. -/
def orderSpotW : Order := { price := 50, filled := 2, fee := some (1/10) }

/-- A filled perp order: 2 contracts at 50. -/
def orderPerpW : Order := { price := 50, filled := 2, fee := some (1/25) }

/-- A fully matched, delta-neutral position on `AAA/USDT:USDT`. -/
def posW : ArbitragePosition :=
  { symbol := "AAA/USDT:USDT", base_currency := "AAA", spot_qty := 2,
    spot_avg_price := 50, spot_value := 100, perp_qty := -2,
    perp_avg_price := 50, perp_value := 100,
    orders := [orderSpotW, orderPerpW] }

/-- Default risk thresholds (watchPeriods 2, reversalThreshold 0.0001). -/
def riskCfgW : RiskConfig := {}

/-- The funding-rate reversal scenario: entry +0.004, then −0.0005,
−0.0007, −0.0006. -/
def ratesW : List ℚ := [4/1000, -5/10000, -7/10000, -6/10000]

/-- One remote funding payment with a canonical ISO timestamp. -/
def paymentW : Payment :=
  { symbol := "AAA/USDT:USDT", ts := TsField.str "2025-01-01T00:00:00",
    income := 1/2 }

/-- The ledger row `sync_remote_payments` appends for `paymentW`. -/
def recW : FundingRecDict :=
  { symbol := "AAA/USDT:USDT", rate := 0, position_value := 0,
    income := 1/2, timestamp := "2025-01-01T00:00:00" }

/-- A tracked position whose spot leg has vanished at the exchange. -/
def posC6 : ArbitragePosition :=
  { symbol := "CCC/USDT:USDT", base_currency := "CCC", spot_qty := 10,
    spot_avg_price := 5, spot_value := 50, perp_qty := -10,
    perp_avg_price := 5, perp_value := 50 }

/-- An exchange-reported perp short of 10 contracts at entry 50
(spec scenario 4). -/
def perpC7 : PerpData :=
  { symbol := "XXX/USDT:USDT", positionAmt := -10, entryPrice := 50,
    leverage := 2 }

/-! ## Helper lemmas -/

theorem lookup_map_snd {β γ : Type} (l : List (String × β)) (f : β → γ)
    (k : String) :
    (l.map (fun e => (e.1, f e.2))).lookup k = (l.lookup k).map f := by
  induction l with
  | nil => simp
  | cons e t ih =>
    by_cases h : k = e.1
    · simp [List.lookup, h]
    · simp [List.lookup, beq_false_of_ne h, ih]

/-! ## C10: save/load round-trip drops the order history -/

/-- C10: saving an `ArbitragePosition` and reloading the store yields a
position under the same symbol with all persisted fields (symbol, base
currency, quantities, average prices, values, funding earned, leverage,
opened-at, funding periods) equal to the saved ones, but with an empty
`orders` list — so `total_cost` of a reloaded position is 0. -/
theorem save_load_all_roundtrip (store : StoreFile) (p : ArbitragePosition) :
    (PositionStore.load_all (PositionStore.save store p)).lookup p.symbol
        = some (dictToPos (posToDict p))
    ∧ (dictToPos (posToDict p)).symbol = p.symbol
    ∧ (dictToPos (posToDict p)).base_currency = p.base_currency
    ∧ (dictToPos (posToDict p)).spot_qty = p.spot_qty
    ∧ (dictToPos (posToDict p)).spot_avg_price = p.spot_avg_price
    ∧ (dictToPos (posToDict p)).spot_value = p.spot_value
    ∧ (dictToPos (posToDict p)).perp_qty = p.perp_qty
    ∧ (dictToPos (posToDict p)).perp_avg_price = p.perp_avg_price
    ∧ (dictToPos (posToDict p)).perp_value = p.perp_value
    ∧ (dictToPos (posToDict p)).funding_earned = p.funding_earned
    ∧ (dictToPos (posToDict p)).leverage = p.leverage
    ∧ (dictToPos (posToDict p)).opened_at = p.opened_at
    ∧ (dictToPos (posToDict p)).funding_periods = p.funding_periods
    ∧ (dictToPos (posToDict p)).orders = []
    ∧ (dictToPos (posToDict p)).total_cost = 0 := by
  refine ⟨?_, rfl, rfl, rfl, rfl, rfl, rfl, rfl, rfl, rfl, rfl, rfl, rfl,
    rfl, rfl⟩
  rw [PositionStore.load_all, lookup_map_snd, PositionStore.save,
    lookup_setKey_self]
  rfl

/-! ## C9: breakeven periods goes through binary floating point -/

/-- Characterisation of `Int.log` by the bracketing powers. -/
theorem int_log_eq {b : ℕ} (hb : 1 < b) {r : ℚ} (hr : 0 < r) (k : ℤ)
    (h1 : (b : ℚ) ^ k ≤ r) (h2 : r < (b : ℚ) ^ (k + 1)) :
    Int.log b r = k := by
  have hle : k ≤ Int.log b r := (Int.zpow_le_iff_le_log hb hr).mp h1
  have hlt : Int.log b r < k + 1 := (Int.lt_zpow_iff_log_lt hb hr).mp h2
  omega

/-- `roundHalfEven` rounds down when the fractional part is below one
half. -/
theorem roundHalfEven_eq_of_lt_half (x : ℚ) (n : ℤ) (h1 : (n : ℚ) ≤ x)
    (h2 : x - n < 1/2) : roundHalfEven x = n := by
  have hf : ⌊x⌋ = n := Int.floor_eq_iff.mpr ⟨h1, by linarith⟩
  unfold roundHalfEven
  rw [hf, if_pos h2]

/-- Evaluation rule for `roundSigDigitsPos` when the scaled significand
rounds down. -/
theorem roundSigDigitsPos_eq (prec : ℕ) (x : ℚ) (k n : ℤ) (hx : 0 < x)
    (h1 : (10 : ℚ) ^ k ≤ x) (h2 : x < (10 : ℚ) ^ (k + 1))
    (hn1 : (n : ℚ) ≤ x / (10 : ℚ) ^ (k - ((prec : ℤ) - 1)))
    (hn2 : x / (10 : ℚ) ^ (k - ((prec : ℤ) - 1)) - n < 1/2) :
    roundSigDigitsPos prec x
      = (n : ℚ) * (10 : ℚ) ^ (k - ((prec : ℤ) - 1)) := by
  have hlog : Int.log 10 x = k := int_log_eq (by norm_num) hx k h1 h2
  unfold roundSigDigitsPos
  dsimp only
  rw [hlog, roundHalfEven_eq_of_lt_half _ n hn1 hn2]

/-- Evaluation rule for `roundB64Pos` in the normal range when the scaled
significand rounds down and the result does not overflow. -/
theorem roundB64Pos_eq (x : ℚ) (k n : ℤ) (hx : 0 < x) (hk : -1022 ≤ k)
    (h1 : (2 : ℚ) ^ k ≤ x) (h2 : x < (2 : ℚ) ^ (k + 1))
    (hn1 : (n : ℚ) ≤ x / (2 : ℚ) ^ (k - 52))
    (hn2 : x / (2 : ℚ) ^ (k - 52) - n < 1/2)
    (hof : ¬((2 : ℚ) ^ (1024 : ℤ) ≤ (n : ℚ) * (2 : ℚ) ^ (k - 52))) :
    roundB64Pos x = some ((n : ℚ) * (2 : ℚ) ^ (k - 52)) := by
  have hlog : Int.log 2 x = k := int_log_eq (by norm_num) hx k h1 h2
  unfold roundB64Pos
  dsimp only
  rw [hlog, max_eq_left hk, roundHalfEven_eq_of_lt_half _ n hn1 hn2,
    if_neg hof]

/-- `dec28` leaves a value with at most 28 significant digits unchanged
(stated for the two exact fee computations of the default schedule). -/
theorem dec28_fee_sum : dec28 ((1:ℚ)/1000 + 4/10000) = 14/10000 := by
  have hx : ((1:ℚ)/1000 + 4/10000) = 14/10000 := by norm_num
  rw [hx]
  rw [show dec28 ((14:ℚ)/10000)
      = roundSigDigitsPos 28 ((14:ℚ)/10000) by
    unfold dec28
    rw [if_neg (by norm_num), if_pos (by norm_num)]]
  rw [roundSigDigitsPos_eq 28 ((14:ℚ)/10000) (-3)
    1400000000000000000000000000 (by norm_num) (by norm_num) (by norm_num)
    (by norm_num) (by norm_num)]
  norm_num

/-- The doubled round-trip fee is exact under the Decimal context. -/
theorem dec28_fee_total : dec28 ((14:ℚ)/10000 * 2) = 28/10000 := by
  have hx : ((14:ℚ)/10000 * 2) = 28/10000 := by norm_num
  rw [hx]
  rw [show dec28 ((28:ℚ)/10000)
      = roundSigDigitsPos 28 ((28:ℚ)/10000) by
    unfold dec28
    rw [if_neg (by norm_num), if_pos (by norm_num)]]
  rw [roundSigDigitsPos_eq 28 ((28:ℚ)/10000) (-3)
    2800000000000000000000000000 (by norm_num) (by norm_num) (by norm_num)
    (by norm_num) (by norm_num)]
  norm_num

/-- The 28-digit Decimal quotient at the failing rate. -/
theorem dec28_quotient :
    dec28 ((28:ℚ)/10000 / (27999999999999999/100000000000000000000))
      = 1000000000000000035714285714 / 10^26 := by
  have hx : ((28:ℚ)/10000 / (27999999999999999/100000000000000000000))
      = 280000000000000000/27999999999999999 := by norm_num
  rw [hx]
  rw [show dec28 ((280000000000000000:ℚ)/27999999999999999)
      = roundSigDigitsPos 28 ((280000000000000000:ℚ)/27999999999999999) by
    unfold dec28
    rw [if_neg (by norm_num), if_pos (by norm_num)]]
  rw [roundSigDigitsPos_eq 28
    ((280000000000000000:ℚ)/27999999999999999) 1
    1000000000000000035714285714 (by norm_num) (by norm_num) (by norm_num)
    (by norm_num) (by norm_num)]
  norm_num

/-- The float conversion of that Decimal quotient is exactly 10.0: the
excess 3.57e-16 over 10 is below half an ulp, so the binary64 rounding
erases it. -/
theorem toFloat_quotient :
    toFloat (1000000000000000035714285714 / 10^26) = some 10 := by
  rw [show toFloat ((1000000000000000035714285714:ℚ) / 10^26)
      = roundB64Pos ((1000000000000000035714285714:ℚ) / 10^26) by
    unfold toFloat
    rw [if_neg (by norm_num), if_pos (by norm_num)]]
  rw [roundB64Pos_eq ((1000000000000000035714285714:ℚ) / 10^26) 3
    5629499534213120 (by norm_num) (by norm_num) (by norm_num)
    (by norm_num) (by norm_num) (by norm_num)
    (by rw [show ((3:ℤ) - 52) = -49 from by norm_num, zpow_neg]; norm_num)]
  rw [show ((3:ℤ) - 52) = -49 from rfl, zpow_neg]
  norm_num

/-- C9 divergence: at funding rate 0.00027999999999999999 with the
default fee schedule, `breakeven_periods` returns 10 — the Decimal
quotient 10.0000000000000000036 is squeezed to 10.0 by the binary64
float conversion before `math.ceil` — while the exact ceiling claimed by
the spec is 11, and 10 settlements do not cover the round-trip fee; the
zero-rate case still returns infinity. -/
theorem breakeven_periods_float_gap :
    breakeven_periods (27999999999999999/100000000000000000000)
      = some ((10 : ℤ) : WithTop ℤ)
    ∧ (⌈2 * ((1:ℚ)/1000 + 4/10000)
        / |(27999999999999999 : ℚ)/100000000000000000000|⌉ : ℤ) = 11
    ∧ ¬(2 * ((1:ℚ)/1000 + 4/10000)
        ≤ (10 : ℚ) * |(27999999999999999 : ℚ)/100000000000000000000|)
    ∧ breakeven_periods 0 = some ⊤ := by
  have habs : |(27999999999999999 : ℚ)/100000000000000000000|
      = 27999999999999999/100000000000000000000 :=
    abs_of_pos (by norm_num)
  refine ⟨?_, ?_, by rw [habs]; norm_num, by norm_num [breakeven_periods]⟩
  · unfold breakeven_periods
    rw [if_neg (by norm_num)]
    dsimp only
    rw [habs, dec28_fee_sum, dec28_fee_total, dec28_quotient,
      toFloat_quotient]
    norm_num
  · rw [habs]
    rw [show 2 * ((1:ℚ)/1000 + 4/10000)
        / (27999999999999999/100000000000000000000)
      = 280000000000000000/27999999999999999 from by norm_num]
    rw [Int.ceil_eq_iff]
    constructor <;> norm_num

/-! ## C3: soundness of the pool filter -/

/-- C3: every pool returned by `PoolSelector.filter` lies in the volume
window, meets the depth and rate floors and the spread ceiling, is not
blacklisted, and has a negative rate only when negative rates are
allowed. -/
theorem filter_sound (cfg : FilterConfig) (pools : List Pool) (q : Pool)
    (hq : q ∈ PoolSelector.filter cfg pools) :
    cfg.min_volume ≤ q.volume_24h ∧ q.volume_24h ≤ cfg.max_volume
    ∧ cfg.min_depth ≤ q.depth_05pct
    ∧ cfg.min_rate ≤ |q.funding_rate|
    ∧ q.spread ≤ cfg.max_spread
    ∧ q.base_currency ∉ cfg.blacklist
    ∧ (q.funding_rate < 0 → cfg.allow_negative_rates = true) := by
  rw [PoolSelector.filter] at hq
  replace hq := (List.mergeSort_perm _ _).mem_iff.mp hq
  rcases List.mem_map.mp hq with ⟨p, hp, rfl⟩
  rcases List.mem_filter.mp hp with ⟨_, hpass⟩
  have hfields :
      (calcMetrics cfg p).volume_24h = p.volume_24h
      ∧ (calcMetrics cfg p).depth_05pct = p.depth_05pct
      ∧ (calcMetrics cfg p).funding_rate = p.funding_rate
      ∧ (calcMetrics cfg p).spread = p.spread
      ∧ (calcMetrics cfg p).base_currency = p.base_currency :=
    ⟨rfl, rfl, rfl, rfl, rfl⟩
  obtain ⟨h1, h2, h3, h4, h5⟩ := hfields
  simp only [passesFilter, Bool.and_eq_true, Bool.not_eq_true',
    decide_eq_true_eq, Bool.or_eq_true] at hpass
  obtain ⟨⟨⟨⟨⟨⟨hbl, hneg⟩, hvmin⟩, hvmax⟩, hdep⟩, hrate⟩, hspr⟩ := hpass
  rw [h1, h2, h3, h4, h5]
  refine ⟨hvmin, hvmax, hdep, hrate, hspr, ?_, ?_⟩
  · simpa using hbl
  · intro hlt
    rcases hneg with hallow | hge
    · exact hallow
    · exact absurd hge (not_le.mpr hlt)

/-- Witness for C3: the scenario-1 pool passes the strict filter and the
soundness conclusions hold for it. -/
theorem filter_sound_witness :
    (calcMetrics cfgW poolW ∈ PoolSelector.filter cfgW [poolW])
    ∧ (cfgW.min_volume ≤ (calcMetrics cfgW poolW).volume_24h
        ∧ (calcMetrics cfgW poolW).volume_24h ≤ cfgW.max_volume
        ∧ cfgW.min_depth ≤ (calcMetrics cfgW poolW).depth_05pct
        ∧ cfgW.min_rate ≤ |(calcMetrics cfgW poolW).funding_rate|
        ∧ (calcMetrics cfgW poolW).spread ≤ cfgW.max_spread
        ∧ (calcMetrics cfgW poolW).base_currency ∉ cfgW.blacklist
        ∧ ((calcMetrics cfgW poolW).funding_rate < 0
            → cfgW.allow_negative_rates = true)) := by
  have hb : poolW.base_currency = "AAA" := by decide
  have hmem : calcMetrics cfgW poolW ∈ PoolSelector.filter cfgW [poolW] := by
    rw [PoolSelector.filter]
    refine (List.mergeSort_perm _ _).mem_iff.mpr ?_
    refine List.mem_map.mpr ⟨poolW, List.mem_filter.mpr ⟨List.mem_singleton.mpr rfl, ?_⟩, rfl⟩
    unfold passesFilter
    rw [hb]
    norm_num [cfgW, poolW]
    constructor
    · decide
    · rw [show |(3:ℚ)/500| = 3/500 from abs_of_nonneg (by norm_num)]
      norm_num
  exact ⟨hmem, filter_sound cfgW [poolW] _ hmem⟩

/-! ## C1: open_arbitrage is atomic-or-compensated in the local store -/

/-- C1: after `open_arbitrage` returns, the local position store is fully
matched or empty for the pool's symbol: a position recording both legs
exists iff both the spot and the perp order succeeded; on a single-leg
failure a compensating market order for the filled leg is submitted and
no local position is recorded, even when the compensation itself fails
(the compensation outcome `comp_ok` is universally quantified here). -/
theorem open_arbitrage_atomic_or_compensated (cfg : Config) (st : ExecState)
    (pool : Pool) (size_usdt : ℚ) (script : OpenScript) (now : ℕ)
    (out : ExecState) (res : Option ArbitragePosition)
    (hrun : Executor.open_arbitrage cfg st pool size_usdt script now
      = (out, res))
    (hfresh : st.positions.lookup pool.symbol = none) :
    ((∃ p, out.positions.lookup pool.symbol = some p)
        ↔ script.leverage_ok = true ∧ 0 < pool.funding_rate
          ∧ (∃ so, script.spot = Except.ok so)
          ∧ (∃ po, script.perp = Except.ok po))
    ∧ (∀ p, out.positions.lookup pool.symbol = some p →
        res = some p ∧ p.symbol = pool.symbol
        ∧ ∃ so po, script.spot = Except.ok so ∧ script.perp = Except.ok po
            ∧ p.spot_qty = so.filled ∧ p.spot_avg_price = so.price
            ∧ p.perp_qty = -po.filled ∧ p.perp_avg_price = po.price)
    ∧ (script.leverage_ok = true → 0 < pool.funding_rate →
        (∀ e po, script.spot = Except.error e → script.perp = Except.ok po →
          OrderReq.perp pool.symbol OrderSide.buy po.filled OrderType.market
              false ∈ out.gateway.log
            ∧ out.positions.lookup pool.symbol = none ∧ res = none)
        ∧ (∀ so e, script.spot = Except.ok so → script.perp = Except.error e →
          OrderReq.spot (pool.base_currency ++ "/USDT") OrderSide.sell
              so.filled OrderType.market ∈ out.gateway.log
            ∧ out.positions.lookup pool.symbol = none ∧ res = none)) := by
  rcases script with ⟨lev, sspot, sperp, comp, save⟩
  simp only [Executor.open_arbitrage] at hrun
  cases lev with
  | false =>
    rw [if_pos rfl] at hrun
    injection hrun with h1 h2
    subst h1; subst h2
    refine ⟨?_, ?_, ?_⟩
    · constructor
      · rintro ⟨p, hp⟩; rw [hfresh] at hp; cases hp
      · rintro ⟨hlev, _⟩; cases hlev
    · intro p hp; rw [hfresh] at hp; cases hp
    · intro hlev; cases hlev
  | true =>
    rw [if_neg (by simp)] at hrun
    by_cases hrate : pool.funding_rate ≤ 0
    · rw [if_pos hrate] at hrun
      injection hrun with h1 h2
      subst h1; subst h2
      refine ⟨?_, ?_, ?_⟩
      · constructor
        · rintro ⟨p, hp⟩
          have hp' : st.positions.lookup pool.symbol = some p := hp
          rw [hfresh] at hp'; cases hp'
        · rintro ⟨_, h0, _⟩
          exact absurd h0 (not_lt.mpr hrate)
      · intro p hp
        have hp' : st.positions.lookup pool.symbol = some p := hp
        rw [hfresh] at hp'; cases hp'
      · intro _ h0; exact absurd h0 (not_lt.mpr hrate)
    · rw [if_neg hrate] at hrun
      cases sspot with
      | error es =>
        cases sperp with
        | error ep =>
          dsimp only at hrun
          injection hrun with h1 h2
          subst h1; subst h2
          refine ⟨?_, ?_, ?_⟩
          · constructor
            · rintro ⟨p, hp⟩
              have hp' : st.positions.lookup pool.symbol = some p := hp
              rw [hfresh] at hp'; cases hp'
            · rintro ⟨_, _, ⟨so, hso⟩, _⟩; cases hso
          · intro p hp
            have hp' : st.positions.lookup pool.symbol = some p := hp
            rw [hfresh] at hp'; cases hp'
          · intro _ _
            refine ⟨?_, ?_⟩
            · intro e po _ hpo; cases hpo
            · intro so e hso _; cases hso
        | ok po =>
          dsimp only at hrun
          injection hrun with h1 h2
          subst h1; subst h2
          refine ⟨?_, ?_, ?_⟩
          · constructor
            · rintro ⟨p, hp⟩
              have hp' : st.positions.lookup pool.symbol = some p := hp
              rw [hfresh] at hp'; cases hp'
            · rintro ⟨_, _, ⟨so, hso⟩, _⟩; cases hso
          · intro p hp
            have hp' : st.positions.lookup pool.symbol = some p := hp
            rw [hfresh] at hp'; cases hp'
          · intro _ _
            refine ⟨?_, ?_⟩
            · intro e po' he hpo
              injection hpo with hpo'
              subst hpo'
              exact ⟨by simp, hfresh, rfl⟩
            · intro so e hso _; cases hso
      | ok so =>
        cases sperp with
        | error ep =>
          dsimp only at hrun
          injection hrun with h1 h2
          subst h1; subst h2
          refine ⟨?_, ?_, ?_⟩
          · constructor
            · rintro ⟨p, hp⟩
              have hp' : st.positions.lookup pool.symbol = some p := hp
              rw [hfresh] at hp'; cases hp'
            · rintro ⟨_, _, _, ⟨po, hpo⟩⟩; cases hpo
          · intro p hp
            have hp' : st.positions.lookup pool.symbol = some p := hp
            rw [hfresh] at hp'; cases hp'
          · intro _ _
            refine ⟨?_, ?_⟩
            · intro e po he hpo; cases he
            · intro so' e hso' he
              injection hso' with hso''
              subst hso''
              exact ⟨by simp, hfresh, rfl⟩
        | ok po =>
          dsimp only at hrun
          injection hrun with h1 h2
          subst h1; subst h2
          refine ⟨?_, ?_, ?_⟩
          · constructor
            · intro _; exact ⟨rfl, not_le.mp hrate, ⟨so, rfl⟩, ⟨po, rfl⟩⟩
            · intro _
              exact ⟨_, lookup_setKey_self st.positions pool.symbol _⟩
          · intro p hp
            have hp' : (setKey st.positions pool.symbol _).lookup pool.symbol
                = some p := hp
            rw [lookup_setKey_self] at hp'
            injection hp' with hp''
            subst hp''
            exact ⟨rfl, rfl, so, po, rfl, rfl, rfl, rfl, rfl, rfl⟩
          · intro _ _
            refine ⟨?_, ?_⟩
            · intro e po' he _; cases he
            · intro so' e _ he; cases he

/-- Witness for C1 (spec scenario 2 variant): spot fills 2@50, the perp
leg raises, and the compensation itself also raises — the executor
market-sells the 2 filled spot units and records no position. -/
theorem open_arbitrage_atomic_or_compensated_witness :
    ((Executor.open_arbitrage {} {} poolW 100
        { spot := Except.ok orderSpotW, perp := Except.error "reject",
          comp_ok := false } 0).1.positions.lookup poolW.symbol = none)
    ∧ OrderReq.spot "AAA/USDT" OrderSide.sell 2 OrderType.market
        ∈ (Executor.open_arbitrage {} {} poolW 100
            { spot := Except.ok orderSpotW, perp := Except.error "reject",
              comp_ok := false } 0).1.gateway.log := by
  obtain ⟨hstate, res, hrun⟩ :
      ∃ o r, Executor.open_arbitrage {} {} poolW 100
        { spot := Except.ok orderSpotW, perp := Except.error "reject",
          comp_ok := false } 0 = (o, r) := ⟨_, _, rfl⟩
  have h := open_arbitrage_atomic_or_compensated {} {} poolW 100
    { spot := Except.ok orderSpotW, perp := Except.error "reject",
      comp_ok := false } 0 hstate res hrun rfl
  have hb : poolW.base_currency = "AAA" := by decide
  have hmain := (h.2.2 rfl (by norm_num [poolW])).2 orderSpotW "reject" rfl rfl
  rw [hrun, hb] at *
  have horder : orderSpotW.filled = 2 := rfl
  rw [horder] at hmain
  exact ⟨hmain.2.1, hmain.1⟩

/-! ## C2: close_arbitrage removes the position iff both legs succeed -/

/-- C2: `close_arbitrage` removes the symbol from the executor's position
map iff both unwind legs succeed; when either leg raises, the position
remains tracked and the call returns `None`. -/
theorem close_arbitrage_removes_iff (st : ExecState) (symbol : String)
    (script : CloseScript) (out : ExecState) (res : Option ℚ)
    (pos : ArbitragePosition)
    (hrun : Executor.close_arbitrage st symbol script = (out, res))
    (hpos : st.positions.lookup symbol = some pos) :
    (out.positions.lookup symbol = none
        ↔ (∃ so, script.spot = Except.ok so)
          ∧ (∃ po, script.perp = Except.ok po))
    ∧ (res.isSome
        ↔ (∃ so, script.spot = Except.ok so)
          ∧ (∃ po, script.perp = Except.ok po))
    ∧ (∀ e, script.spot = Except.error e →
        out.positions.lookup symbol = some pos ∧ res = none)
    ∧ (∀ e, script.perp = Except.error e →
        out.positions.lookup symbol = some pos ∧ res = none) := by
  rcases script with ⟨sspot, sperp, rok⟩
  simp only [Executor.close_arbitrage, hpos] at hrun
  cases sspot with
  | error es =>
    cases sperp with
    | error ep =>
      dsimp only at hrun
      injection hrun with h1 h2; subst h1; subst h2
      refine ⟨by simp [hpos], by simp, ?_, ?_⟩
      · intro e _; exact ⟨hpos, rfl⟩
      · intro e _; exact ⟨hpos, rfl⟩
    | ok po =>
      dsimp only at hrun
      injection hrun with h1 h2; subst h1; subst h2
      refine ⟨by simp [hpos], by simp, ?_, ?_⟩
      · intro e _; exact ⟨hpos, rfl⟩
      · intro e he; cases he
  | ok so =>
    cases sperp with
    | error ep =>
      dsimp only at hrun
      injection hrun with h1 h2; subst h1; subst h2
      refine ⟨by simp [hpos], by simp, ?_, ?_⟩
      · intro e he; cases he
      · intro e _; exact ⟨hpos, rfl⟩
    | ok po =>
      dsimp only at hrun
      injection hrun with h1 h2; subst h1; subst h2
      refine ⟨?_, by simp, ?_, ?_⟩
      · simp only [lookup_delKey_self]
        exact ⟨fun _ => ⟨⟨so, rfl⟩, ⟨po, rfl⟩⟩, fun _ => trivial⟩
      · intro e he; cases he
      · intro e he; cases he

/-- Witness for C2: closing `posW` when the reduce-only perp leg raises
leaves the position tracked and returns `None`. -/
theorem close_arbitrage_removes_iff_witness :
    ((Executor.close_arbitrage
        { positions := [("AAA/USDT:USDT", posW)] } "AAA/USDT:USDT"
        { spot := Except.ok orderSpotW,
          perp := Except.error "down" }).1.positions.lookup "AAA/USDT:USDT"
      = some posW)
    ∧ (Executor.close_arbitrage
        { positions := [("AAA/USDT:USDT", posW)] } "AAA/USDT:USDT"
        { spot := Except.ok orderSpotW,
          perp := Except.error "down" }).2 = none := by
  obtain ⟨o, r, hrun⟩ :
      ∃ o r, Executor.close_arbitrage
        { positions := [("AAA/USDT:USDT", posW)] } "AAA/USDT:USDT"
        { spot := Except.ok orderSpotW, perp := Except.error "down" }
        = (o, r) := ⟨_, _, rfl⟩
  have h := close_arbitrage_removes_iff _ _ _ o r posW hrun
    (by simp [List.lookup])
  rw [hrun]
  exact (h.2.2.2 "down" rfl)

/-! ## C4: funding-rate reversal detection -/

/-- The window returned by one `_check_rate_reversal` step is the updated
history, whatever the verdict. -/
theorem checkRateReversalH_fst (cfg : RiskConfig) (history : List ℚ)
    (rate : ℚ) :
    (checkRateReversalH cfg history rate).1
      = updateHistory cfg.rate_reversal_periods history rate := by
  unfold checkRateReversalH
  dsimp only
  split
  · rfl
  · split
    · split <;> rfl
    · split <;> rfl

/-- The updated history never exceeds `watchPeriods + 1` entries, given
the running invariant on the previous history. -/
theorem updateHistory_length_le (cfg : RiskConfig) (history : List ℚ)
    (rate : ℚ) (hlen : history.length ≤ cfg.rate_reversal_periods + 1) :
    (updateHistory cfg.rate_reversal_periods history rate).length
      ≤ cfg.rate_reversal_periods + 1 := by
  unfold updateHistory
  dsimp only
  have hlen' : (history ++ [rate]).length = history.length + 1 := by simp
  split <;> rename_i hc <;>
    simp only [List.length_tail, hlen'] at hc ⊢ <;> omega

/-- Window shape: one `_check_rate_reversal` step keeps the last
`watchPeriods + 1` observed rates. -/
theorem rate_window_shape (cfg : RiskConfig) (history : List ℚ) (rate : ℚ)
    (hlen : history.length ≤ cfg.rate_reversal_periods + 1) :
    (checkRateReversalH cfg history rate).1.length
        = min (history.length + 1) (cfg.rate_reversal_periods + 1)
    ∧ (checkRateReversalH cfg history rate).1 <:+ (history ++ [rate]) := by
  rw [checkRateReversalH_fst]
  unfold updateHistory
  dsimp only
  by_cases hover :
      cfg.rate_reversal_periods + 1 < (history ++ [rate]).length
  · rw [if_pos hover]
    have hlen' : (history ++ [rate]).length = history.length + 1 := by simp
    constructor
    · simp only [List.length_tail, hlen']
      omega
    · exact List.tail_suffix _
  · rw [if_neg hover]
    have hlen' : (history ++ [rate]).length = history.length + 1 := by simp
    constructor
    · simp only [hlen']
      omega
    · exact List.suffix_refl _

/-- CLOSE rule: a `_check_rate_reversal` step returns CLOSE with
severity 7 exactly when the updated window is full, and either its first
(entry) rate is positive with every subsequent rate below the negated
reversal threshold, or its first rate is non-positive with every
subsequent rate above the threshold. -/
theorem rate_close_iff (cfg : RiskConfig) (history : List ℚ) (rate : ℚ)
    (hlen : history.length ≤ cfg.rate_reversal_periods + 1) :
    ((checkRateReversalH cfg history rate).2.action = RiskAction.close
        ∧ (checkRateReversalH cfg history rate).2.severity = 7)
      ↔ ((checkRateReversalH cfg history rate).1.length
            = cfg.rate_reversal_periods + 1
          ∧ ((0 < (checkRateReversalH cfg history rate).1.headD 0
              ∧ ∀ x ∈ (checkRateReversalH cfg history rate).1.tail,
                  x < -cfg.rate_reversal_threshold)
            ∨ ((checkRateReversalH cfg history rate).1.headD 0 ≤ 0
              ∧ ∀ x ∈ (checkRateReversalH cfg history rate).1.tail,
                  cfg.rate_reversal_threshold < x))) := by
  have hwin := updateHistory_length_le cfg history rate hlen
  rw [checkRateReversalH_fst]
  unfold checkRateReversalH
  set h := updateHistory cfg.rate_reversal_periods history rate with hh
  clear_value h
  by_cases hfull : h.length < cfg.rate_reversal_periods + 1
  · rw [if_pos hfull]
    dsimp only
    constructor
    · rintro ⟨hact, _⟩; cases hact
    · rintro ⟨hl, _⟩; omega
  · rw [if_neg hfull]
    dsimp only
    by_cases hpos : 0 < h.headD 0
    · rw [if_pos hpos]
      by_cases hall : (h.tail.all
          (fun r => decide (r < -cfg.rate_reversal_threshold))) = true
      · rw [if_pos hall]
        dsimp only
        simp only [List.all_eq_true, decide_eq_true_eq] at hall
        constructor
        · intro _
          exact ⟨by omega, Or.inl ⟨hpos, hall⟩⟩
        · intro _; exact ⟨rfl, rfl⟩
      · rw [if_neg hall]
        dsimp only
        simp only [List.all_eq_true, decide_eq_true_eq] at hall
        constructor
        · rintro ⟨hact, _⟩; cases hact
        · rintro ⟨_, hd | hd⟩
          · exact absurd hd.2 hall
          · exact absurd hpos (not_lt.mpr hd.1)
    · rw [if_neg hpos]
      by_cases hall : (h.tail.all
          (fun r => decide (cfg.rate_reversal_threshold < r))) = true
      · rw [if_pos hall]
        dsimp only
        simp only [List.all_eq_true, decide_eq_true_eq] at hall
        constructor
        · intro _
          exact ⟨by omega, Or.inr ⟨not_lt.mp hpos, hall⟩⟩
        · intro _; exact ⟨rfl, rfl⟩
      · rw [if_neg hall]
        dsimp only
        simp only [List.all_eq_true, decide_eq_true_eq] at hall
        constructor
        · rintro ⟨hact, _⟩; cases hact
        · rintro ⟨_, hd | hd⟩
          · exact absurd hd.1 (not_lt.mp hpos).not_lt
          · exact absurd hd.2 hall

/-- Scenario evaluation: entry +0.004, then −0.0005, −0.0007, −0.0006
with the default thresholds: the third check CLOSEs with severity 7. -/
theorem rate_scenario_eval :
    runRates riskCfgW posW ratesW =
      [{ action := RiskAction.hold, reason := "All checks passed" },
       { action := RiskAction.hold, reason := "All checks passed" },
       { action := RiskAction.close, reason := "rate reversal",
         severity := 7 },
       { action := RiskAction.hold, reason := "All checks passed" }] := by
  norm_num [runRates, ratesW, RiskManager.check, checkDelta,
    checkRateReversal, checkRateReversalH, updateHistory,
    checkPositionLoss, riskCfgW, posW, ArbitragePosition.delta,
    ArbitragePosition.notional_value, setKey, List.lookup, List.filter]
  rfl

/-- C4: the risk manager keeps, per symbol, a rolling window of the last
`watchPeriods + 1` observed funding rates, and CLOSEs with severity 7
exactly when the window is full, its first (entry) rate was positive and
every subsequent rate lies below `-reversalThreshold` (symmetric for
non-positive entries).  In particular, for entry +0.004, subsequent
rates −0.0005, −0.0007, −0.0006, threshold 0.0001 and watchPeriods 2,
`check` returns CLOSE with severity 7 (at the first check whose window
is full). -/
theorem rate_reversal_spec :
    (∀ (cfg : RiskConfig) (st : RateHistory) (symbol : String) (rate : ℚ),
      ((st.lookup symbol).getD []).length ≤ cfg.rate_reversal_periods + 1 →
      ∃ window,
        (checkRateReversal cfg st symbol rate).1.lookup symbol = some window
        ∧ window.length
            = min (((st.lookup symbol).getD []).length + 1)
                (cfg.rate_reversal_periods + 1)
        ∧ window <:+ ((st.lookup symbol).getD [] ++ [rate]))
    ∧ (∀ (cfg : RiskConfig) (history : List ℚ) (rate : ℚ),
        history.length ≤ cfg.rate_reversal_periods + 1 →
        (((checkRateReversalH cfg history rate).2.action = RiskAction.close
            ∧ (checkRateReversalH cfg history rate).2.severity = 7)
          ↔ ((checkRateReversalH cfg history rate).1.length
                = cfg.rate_reversal_periods + 1
              ∧ ((0 < (checkRateReversalH cfg history rate).1.headD 0
                  ∧ ∀ x ∈ (checkRateReversalH cfg history rate).1.tail,
                      x < -cfg.rate_reversal_threshold)
                ∨ ((checkRateReversalH cfg history rate).1.headD 0 ≤ 0
                  ∧ ∀ x ∈ (checkRateReversalH cfg history rate).1.tail,
                      cfg.rate_reversal_threshold < x)))))
    ∧ (runRates riskCfgW posW ratesW).any
        (fun r => decide (r.action = RiskAction.close ∧ r.severity = 7))
        = true := by
  refine ⟨?_, rate_close_iff, ?_⟩
  · intro cfg st symbol rate hlen
    obtain ⟨hl, hs⟩ := rate_window_shape cfg ((st.lookup symbol).getD [])
      rate hlen
    exact ⟨(checkRateReversalH cfg ((st.lookup symbol).getD []) rate).1,
      lookup_setKey_self _ _ _, hl, hs⟩
  · rw [rate_scenario_eval]
    decide

/-- Witness for C4: one reversal step on a full window [0.004, −0.0005]
followed by −0.0007 yields a full three-entry window, and the four-rate
scenario contains a CLOSE of severity 7. -/
theorem rate_reversal_spec_witness :
    (∃ window,
      (checkRateReversal riskCfgW
          [("AAA/USDT:USDT", [4/1000, -5/10000])] "AAA/USDT:USDT"
          (-7/10000)).1.lookup "AAA/USDT:USDT" = some window
      ∧ window.length = min 3 3
      ∧ window <:+ ([4/1000, -5/10000] ++ [-7/10000]))
    ∧ (runRates riskCfgW posW ratesW).any
        (fun r => decide (r.action = RiskAction.close ∧ r.severity = 7))
        = true := by
  refine ⟨?_, rate_reversal_spec.2.2⟩
  have h := rate_reversal_spec.1 riskCfgW
    [("AAA/USDT:USDT", [4/1000, -5/10000])] "AAA/USDT:USDT" (-7/10000)
    (by simp [List.lookup, riskCfgW])
  simpa [List.lookup, riskCfgW] using h

/-! ## C5: funding-income sync is idempotent -/

/-- When every remaining payment's de-duplication key is already known,
the sync loop adds nothing and leaves the rows unchanged. -/
theorem syncGo_all_skipped (canon : String → Option String)
    (recs : List FundingRecDict) (keys : List (String × String × ℚ))
    (added : ℕ) (ps : List Payment)
    (h : ∀ p ∈ ps, ∀ t, tsIso p.ts = some t
      → (p.symbol, t, p.income) ∈ keys) :
    syncGo canon recs keys added ps = some (recs, added) := by
  induction ps with
  | nil => rfl
  | cons p rest ih =>
    unfold syncGo
    cases hts : tsIso p.ts with
    | none =>
      exact ih (fun q hq => h q (List.mem_cons_of_mem p hq))
    | some t =>
      dsimp only
      rw [if_pos (h p (List.mem_cons_self p rest) t hts)]
      exact ih (fun q hq => h q (List.mem_cons_of_mem p hq))

/-- After a successful sync pass over canonical payments, the result rows
contain every old row key and the key of every processed payment
(provided the incoming `keys` are all row keys). -/
theorem syncGo_covers (canon : String → Option String) (ps : List Payment) :
    ∀ (recs : List FundingRecDict) (keys : List (String × String × ℚ))
      (added : ℕ) (recs' : List FundingRecDict) (added' : ℕ),
    (∀ p ∈ ps, canonicalTs canon p.ts) →
    (∀ k ∈ keys, k ∈ recs.map recKey) →
    syncGo canon recs keys added ps = some (recs', added') →
    (∀ k ∈ recs.map recKey, k ∈ recs'.map recKey)
    ∧ (∀ p ∈ ps, ∀ t, tsIso p.ts = some t
        → (p.symbol, t, p.income) ∈ recs'.map recKey) := by
  induction ps with
  | nil =>
    intro recs keys added recs' added' _ _ hrun
    unfold syncGo at hrun
    injection hrun with hrun'
    injection hrun' with h1 h2
    subst h1
    exact ⟨fun k hk => hk, fun p hp => absurd hp (List.not_mem_nil p)⟩
  | cons p rest ih =>
    intro recs keys added recs' added' hcanon hkeys hrun
    unfold syncGo at hrun
    cases hts : tsIso p.ts with
    | none =>
      rw [hts] at hrun
      obtain ⟨hmono, hcov⟩ := ih recs keys added recs' added'
        (fun q hq => hcanon q (List.mem_cons_of_mem p hq)) hkeys hrun
      refine ⟨hmono, ?_⟩
      intro q hq t hqt
      rcases List.mem_cons.mp hq with rfl | hq'
      · rw [hts] at hqt; cases hqt
      · exact hcov q hq' t hqt
    | some t =>
      rw [hts] at hrun
      dsimp only at hrun
      by_cases hk : (p.symbol, t, p.income) ∈ keys
      · rw [if_pos hk] at hrun
        obtain ⟨hmono, hcov⟩ := ih recs keys added recs' added'
          (fun q hq => hcanon q (List.mem_cons_of_mem p hq)) hkeys hrun
        refine ⟨hmono, ?_⟩
        intro q hq t' hqt
        rcases List.mem_cons.mp hq with rfl | hq'
        · rw [hts] at hqt
          injection hqt with hqt'
          subst hqt'
          exact hmono _ (hkeys _ hk)
        · exact hcov q hq' t' hqt
      · rw [if_neg hk] at hrun
        have hstored : storedTs canon p.ts = some t := by
          have hc := hcanon p (List.mem_cons_self p rest)
          cases hpts : p.ts with
          | dt iso =>
            rw [hpts] at hts
            injection hts with hts'
            subst hts'
            rfl
          | str s =>
            rw [hpts] at hts
            injection hts with hts'
            subst hts'
            rw [hpts] at hc
            exact hc
          | invalid =>
            rw [hpts] at hts; cases hts
        rw [hstored] at hrun
        dsimp only at hrun
        have hrowkey : recKey (paymentRow p t) = (p.symbol, t, p.income) :=
          rfl
        have hkeys' : ∀ k ∈ (p.symbol, t, p.income) :: keys,
            k ∈ (recs ++ [paymentRow p t]).map recKey := by
          intro k hkmem
          rcases List.mem_cons.mp hkmem with rfl | hk'
          · rw [List.map_append]
            refine List.mem_append_right _ ?_
            rw [← hrowkey]
            exact List.mem_map_of_mem recKey (List.mem_singleton.mpr rfl)
          · rw [List.map_append]
            exact List.mem_append_left _ (hkeys _ hk')
        obtain ⟨hmono, hcov⟩ := ih (recs ++ [paymentRow p t])
          ((p.symbol, t, p.income) :: keys) (added + 1) recs' added'
          (fun q hq => hcanon q (List.mem_cons_of_mem p hq)) hkeys' hrun
        have hmono' : ∀ k ∈ recs.map recKey, k ∈ recs'.map recKey := by
          intro k hkmem
          refine hmono k ?_
          rw [List.map_append]
          exact List.mem_append_left _ hkmem
        refine ⟨hmono', ?_⟩
        intro q hq t' hqt
        rcases List.mem_cons.mp hq with rfl | hq'
        · rw [hts] at hqt
          injection hqt with hqt'
          subst hqt'
          refine hmono _ ?_
          rw [List.map_append]
          refine List.mem_append_right _ ?_
          rw [← hrowkey]
          exact List.mem_map_of_mem recKey (List.mem_singleton.mpr rfl)
        · exact hcov q hq' t' hqt

/-- C5: `sync_remote_payments` is idempotent on exchange payments (whose
ISO timestamps are canonical): replaying the same payment list onto the
rows it produced adds 0 rows and leaves the ledger unchanged. -/
theorem sync_remote_payments_idempotent (canon : String → Option String)
    (records : List FundingRecDict) (payments : List Payment)
    (records1 : List FundingRecDict) (n1 : ℕ)
    (hcanon : ∀ p ∈ payments, canonicalTs canon p.ts)
    (h1 : FundingTracker.sync_remote_payments canon records payments
      = some (records1, n1)) :
    FundingTracker.sync_remote_payments canon records1 payments
      = some (records1, 0) := by
  unfold FundingTracker.sync_remote_payments at h1 ⊢
  by_cases hnil : payments = []
  · rw [if_pos hnil]
  · rw [if_neg hnil] at h1 ⊢
    obtain ⟨_, hcov⟩ := syncGo_covers canon payments records
      (records.map recKey) 0 records1 n1 hcanon (fun k hk => hk) h1
    exact syncGo_all_skipped canon records1 (records1.map recKey) 0
      payments (fun p hp t ht => hcov p hp t ht)

/-- Witness for C5: syncing one canonical exchange payment into an empty
ledger adds one row; replaying it adds none. -/
theorem sync_remote_payments_idempotent_witness :
    FundingTracker.sync_remote_payments (fun s => some s) [] [paymentW]
      = some ([recW], 1)
    ∧ FundingTracker.sync_remote_payments (fun s => some s) [recW]
        [paymentW] = some ([recW], 0) := by
  have hrun : FundingTracker.sync_remote_payments (fun s => some s) []
      [paymentW] = some ([recW], 1) := by
    norm_num [FundingTracker.sync_remote_payments, syncGo, paymentRow,
      paymentW, recW, tsIso, storedTs]
  refine ⟨hrun, sync_remote_payments_idempotent (fun s => some s) []
    [paymentW] [recW] 1 ?_ hrun⟩
  intro p hp
  rcases List.mem_singleton.mp hp with rfl
  simp [paymentW, canonicalTs]

/-! ## C6: consistency repair never reaches the persisted store -/

/-- C6 (divergence witness): a tracked position whose spot leg is gone is
detected, its surviving perp leg is market-unwound, the in-memory entry
is removed and the alert list is non-empty — but the persisted store
still holds the record, because `verify_and_fix_positions` calls the
non-existent `position_store.delete` (the class only defines `remove`),
and the resulting `AttributeError` is swallowed by the repair's
`except`. -/
theorem verify_fix_persisted_record_survives :
    ((verify_and_fix_positions (fun _ => true) [("CCC/USDT:USDT", -10)]
        [("CCC", { free := 0, total := 0 })] [("CCC/USDT:USDT", posC6)]
        [("CCC/USDT:USDT", posToDict posC6)]).positions.lookup
          "CCC/USDT:USDT" = none)
    ∧ ((verify_and_fix_positions (fun _ => true) [("CCC/USDT:USDT", -10)]
        [("CCC", { free := 0, total := 0 })] [("CCC/USDT:USDT", posC6)]
        [("CCC/USDT:USDT", posToDict posC6)]).store.lookup "CCC/USDT:USDT"
          = some (posToDict posC6))
    ∧ ((verify_and_fix_positions (fun _ => true) [("CCC/USDT:USDT", -10)]
        [("CCC", { free := 0, total := 0 })] [("CCC/USDT:USDT", posC6)]
        [("CCC/USDT:USDT", posToDict posC6)]).log
          = [OrderReq.perp "CCC/USDT:USDT" OrderSide.buy 10 OrderType.market
              false])
    ∧ ((verify_and_fix_positions (fun _ => true) [("CCC/USDT:USDT", -10)]
        [("CCC", { free := 0, total := 0 })] [("CCC/USDT:USDT", posC6)]
        [("CCC/USDT:USDT", posToDict posC6)]).issues = ["CCC/USDT:USDT"]) := by
  norm_num [verify_and_fix_positions, verifyFixStep, posC6, posToDict,
    delKey, List.lookup, List.filter]

/-! ## C7: orphan adoption is keyed on quantity, not notional -/

/-- A sync step does not touch positions under other symbols. -/
theorem syncOrphanStep_lookup_other (bals : List (String × ℚ)) (now : ℕ)
    (acc : OrphanState) (p : PerpData) (sym : String)
    (h : p.symbol ≠ sym) :
    (syncOrphanStep bals now acc p).positions.lookup sym
      = acc.positions.lookup sym := by
  unfold syncOrphanStep
  split_ifs <;> first
    | rfl
    | exact lookup_setKey_ne acc.positions p.symbol sym _ (Ne.symm h)

/-- A sync step keeps every already-tracked position unchanged. -/
theorem syncOrphanStep_preserves_some (bals : List (String × ℚ)) (now : ℕ)
    (acc : OrphanState) (p : PerpData) (sym : String)
    (q : ArbitragePosition) (h : acc.positions.lookup sym = some q) :
    (syncOrphanStep bals now acc p).positions.lookup sym = some q := by
  by_cases hsym : p.symbol = sym
  · subst hsym
    unfold syncOrphanStep
    split_ifs with h1 h2 <;> try exact h
    exact absurd (by rw [h]; rfl) h2
  · rw [syncOrphanStep_lookup_other bals now acc p sym hsym]
    exact h

/-- The whole reconciliation pass keeps already-tracked positions. -/
theorem orphan_fold_preserves_some (bals : List (String × ℚ)) (now : ℕ)
    (perps : List PerpData) :
    ∀ (acc : OrphanState) (sym : String) (q : ArbitragePosition),
      acc.positions.lookup sym = some q →
      ((perps.foldl (syncOrphanStep bals now) acc).positions.lookup sym
        = some q) := by
  induction perps with
  | nil => intro acc sym q h; exact h
  | cons hd tl ih =>
    intro acc sym q h
    rw [List.foldl_cons]
    exact ih _ sym q (syncOrphanStep_preserves_some bals now acc hd sym q h)

/-- The whole reconciliation pass does not touch symbols absent from the
exchange report. -/
theorem orphan_fold_lookup_other (bals : List (String × ℚ)) (now : ℕ)
    (perps : List PerpData) :
    ∀ (acc : OrphanState) (sym : String),
      (∀ p ∈ perps, p.symbol ≠ sym) →
      ((perps.foldl (syncOrphanStep bals now) acc).positions.lookup sym
        = acc.positions.lookup sym) := by
  induction perps with
  | nil => intro acc sym _; rfl
  | cons hd tl ih =>
    intro acc sym h
    rw [List.foldl_cons,
      ih _ sym (fun p hp => h p (List.mem_cons_of_mem hd hp)),
      syncOrphanStep_lookup_other bals now acc hd sym
        (h hd (List.mem_cons_self hd tl))]

/-- Adoption analysis of the fold, for a symbol not yet tracked when the
loop reaches its exchange record. -/
theorem orphan_fold_adopt (bals : List (String × ℚ)) (now : ℕ)
    (perps : List PerpData) :
    ∀ (acc : OrphanState) (p : PerpData), p ∈ perps →
      (perps.map PerpData.symbol).Nodup →
      acc.positions.lookup p.symbol = none →
      ((((perps.foldl (syncOrphanStep bals now) acc)).positions.lookup
            p.symbol).isSome = true
          ↔ (p.positionAmt ≠ 0
            ∧ |p.positionAmt| * (9/10)
                ≤ (bals.lookup (baseOfSymbol p.symbol)).getD 0))
      ∧ (∀ q, ((perps.foldl (syncOrphanStep bals now) acc)).positions.lookup
            p.symbol = some q →
          q.spot_avg_price = p.entryPrice ∧ q.perp_avg_price = p.entryPrice
          ∧ q.spot_qty = |p.positionAmt| ∧ q.perp_qty = p.positionAmt) := by
  induction perps with
  | nil => intro acc p hp; exact absurd hp (List.not_mem_nil p)
  | cons hd tl ih =>
    intro acc p hp hnodup hfresh
    rw [List.map_cons, List.nodup_cons] at hnodup
    rcases List.mem_cons.mp hp with rfl | hptl
    · have htl_ne : ∀ p' ∈ tl, p'.symbol ≠ p.symbol := by
        intro p' hp' hc
        exact hnodup.1 (hc ▸ List.mem_map_of_mem PerpData.symbol hp')
      rw [List.foldl_cons]
      by_cases hamt : p.positionAmt = 0
      · have hstep : syncOrphanStep bals now acc p = acc := by
          unfold syncOrphanStep
          rw [if_pos hamt]
        rw [hstep, orphan_fold_lookup_other bals now tl acc p.symbol htl_ne,
          hfresh]
        refine ⟨⟨fun hc => by simp at hc, ?_⟩, fun q hq => by cases hq⟩
        rintro ⟨hne, _⟩
        exact absurd hamt hne
      · by_cases hfree : |p.positionAmt| * (9/10)
            ≤ (bals.lookup (baseOfSymbol p.symbol)).getD 0
        · have hstep : syncOrphanStep bals now acc p
              = { positions := setKey acc.positions p.symbol
                    (orphanPos p now)
                  store := PositionStore.save acc.store (orphanPos p now)
                  adopted := acc.adopted ++ [p.symbol] } := by
            unfold syncOrphanStep
            rw [if_neg hamt, if_neg (by rw [hfresh]; simp), if_pos hfree]
          rw [hstep]
          have hlook := orphan_fold_preserves_some bals now tl
            { positions := setKey acc.positions p.symbol (orphanPos p now)
              store := PositionStore.save acc.store (orphanPos p now)
              adopted := acc.adopted ++ [p.symbol] } p.symbol
            (orphanPos p now) (lookup_setKey_self acc.positions p.symbol _)
          rw [hlook]
          refine ⟨⟨fun _ => ⟨hamt, hfree⟩, fun _ => rfl⟩, ?_⟩
          intro q hq
          injection hq with hq'
          subst hq'
          exact ⟨rfl, rfl, rfl, rfl⟩
        · have hstep : syncOrphanStep bals now acc p = acc := by
            unfold syncOrphanStep
            rw [if_neg hamt, if_neg (by rw [hfresh]; simp), if_neg hfree]
          rw [hstep, orphan_fold_lookup_other bals now tl acc p.symbol
            htl_ne, hfresh]
          refine ⟨⟨fun hc => by simp at hc, ?_⟩, fun q hq => by cases hq⟩
          rintro ⟨_, hf⟩
          exact absurd hf hfree
    · have hhd_ne : hd.symbol ≠ p.symbol := by
        intro hc
        exact hnodup.1 (hc ▸ List.mem_map_of_mem PerpData.symbol hptl)
      rw [List.foldl_cons]
      refine ih (syncOrphanStep bals now acc hd) p hptl hnodup.2 ?_
      rw [syncOrphanStep_lookup_other bals now acc hd p.symbol hhd_ne]
      exact hfresh

/-- C7 counterexample: with an empty store, a perp short of 10 at entry
50 and a free spot balance of 9.5, reconciliation adopts the position
(with spot cost basis 50) although 9.5 is far below 90% of the perp
notional 10 × 50 — the 90% test is against the perp quantity, not the
notional. -/
theorem sync_orphan_notional_counterexample :
    ((sync_orphan_positions [] [] [perpC7] [("XXX", 19/2)]
        0).positions.lookup "XXX/USDT:USDT").isSome = true
    ∧ (∀ q, (sync_orphan_positions [] [] [perpC7] [("XXX", 19/2)]
        0).positions.lookup "XXX/USDT:USDT" = some q →
          q.spot_avg_price = 50 ∧ q.perp_avg_price = 50)
    ∧ ¬((9/10 : ℚ) * (|(-10 : ℚ)| * 50) ≤ 19/2) := by
  have heval : (sync_orphan_positions [] [] [perpC7] [("XXX", 19/2)]
      0).positions.lookup "XXX/USDT:USDT" = some (orphanPos perpC7 0) := by
    norm_num [sync_orphan_positions, syncOrphanStep, perpC7,
      show baseOfSymbol "XXX/USDT:USDT" = "XXX" from by decide,
      setKey, List.lookup, List.filter]
  refine ⟨by rw [heval]; rfl, ?_, by norm_num⟩
  intro q hq
  rw [heval] at hq
  injection hq with hq'
  subst hq'
  exact ⟨rfl, rfl⟩

/-- C7 (amended): reconciliation never modifies an already-tracked
symbol, and adopts an exchange-reported perp position exactly when it is
nonzero and the free spot balance of the base asset covers at least 90%
of the perp quantity; the adopted position uses the perp entry price as
both the spot and perp average price (cost-basis approximation). -/
theorem sync_orphan_adopts_on_quantity
    (positions : List (String × ArbitragePosition)) (store : StoreFile)
    (perps : List PerpData) (bals : List (String × ℚ)) (now : ℕ)
    (hnodup : (perps.map PerpData.symbol).Nodup) :
    (∀ sym q, positions.lookup sym = some q →
      (sync_orphan_positions positions store perps bals
          now).positions.lookup sym = some q)
    ∧ (∀ p ∈ perps, positions.lookup p.symbol = none →
        ((((sync_orphan_positions positions store perps bals
              now).positions.lookup p.symbol).isSome = true
            ↔ (p.positionAmt ≠ 0
              ∧ |p.positionAmt| * (9/10)
                  ≤ (bals.lookup (baseOfSymbol p.symbol)).getD 0))
          ∧ ∀ q, (sync_orphan_positions positions store perps bals
              now).positions.lookup p.symbol = some q →
                q.spot_avg_price = p.entryPrice
                ∧ q.perp_avg_price = p.entryPrice
                ∧ q.spot_qty = |p.positionAmt|
                ∧ q.perp_qty = p.positionAmt)) := by
  constructor
  · intro sym q h
    exact orphan_fold_preserves_some bals now perps _ sym q h
  · intro p hp hfresh
    exact orphan_fold_adopt bals now perps _ p hp hnodup hfresh

/-- Witness for C7 (amended, spec scenario 4): the 9.5 free balance
covers 90% of the quantity 10, so the position is adopted with cost
basis 50; a tracked symbol elsewhere in the store is untouched. -/
theorem sync_orphan_adopts_on_quantity_witness :
    ((sync_orphan_positions [("AAA/USDT:USDT", posW)] [] [perpC7]
        [("XXX", 19/2)] 0).positions.lookup "XXX/USDT:USDT").isSome = true
    ∧ (sync_orphan_positions [("AAA/USDT:USDT", posW)] [] [perpC7]
        [("XXX", 19/2)] 0).positions.lookup "AAA/USDT:USDT" = some posW := by
  have h := sync_orphan_adopts_on_quantity [("AAA/USDT:USDT", posW)] []
    [perpC7] [("XXX", 19/2)] 0 (by simp)
  constructor
  · refine ((h.2 perpC7 (List.mem_singleton.mpr rfl) (by decide)).1).mpr ?_
    constructor
    · norm_num [perpC7]
    · rw [show baseOfSymbol perpC7.symbol = "XXX" from rfl]
      norm_num [perpC7, List.lookup]
  · exact h.1 "AAA/USDT:USDT" posW (by simp [List.lookup])

/-! ## C8: nonpositive-rate rejection happens after set_leverage -/

/-- C8 counterexample: a zero-rate request is rejected with no order
submitted and no position recorded, but the Gateway state has changed:
`set_leverage` ran before the rate check. -/
theorem open_arbitrage_reject_leverage_counterexample :
    (Executor.open_arbitrage {} {} poolNeg 100
        { spot := Except.error "e", perp := Except.error "e" } 0).2 = none
    ∧ (Executor.open_arbitrage {} {} poolNeg 100
        { spot := Except.error "e", perp := Except.error "e" }
        0).1.gateway.log = []
    ∧ (Executor.open_arbitrage {} {} poolNeg 100
        { spot := Except.error "e", perp := Except.error "e" }
        0).1.positions = []
    ∧ (Executor.open_arbitrage {} {} poolNeg 100
        { spot := Except.error "e", perp := Except.error "e" }
        0).1.gateway.leverage = [("NNN/USDT:USDT", 2)]
    ∧ (Executor.open_arbitrage {} {} poolNeg 100
        { spot := Except.error "e", perp := Except.error "e" }
        0).1.gateway ≠ ({} : ExecState).gateway := by
  refine ⟨?_, ?_, ?_, ?_, ?_⟩ <;>
    norm_num [Executor.open_arbitrage, poolNeg, setKey, Gateway.mk.injEq]

/-- C8 (amended): for a pool with rate ≤ 0, `open_arbitrage` returns
`None` before any order is placed: no order request is submitted and the
positions and persisted store are unchanged — but the perp leverage has
already been set through the Gateway when `set_leverage` succeeded. -/
theorem open_arbitrage_rejects_nonpositive (cfg : Config) (st : ExecState)
    (pool : Pool) (size_usdt : ℚ) (script : OpenScript) (now : ℕ)
    (hrate : pool.funding_rate ≤ 0) :
    (Executor.open_arbitrage cfg st pool size_usdt script now).2 = none
    ∧ (Executor.open_arbitrage cfg st pool size_usdt script
        now).1.positions = st.positions
    ∧ (Executor.open_arbitrage cfg st pool size_usdt script now).1.store
        = st.store
    ∧ (Executor.open_arbitrage cfg st pool size_usdt script
        now).1.gateway.log = st.gateway.log
    ∧ (Executor.open_arbitrage cfg st pool size_usdt script
        now).1.gateway.leverage
        = (if script.leverage_ok
            then setKey st.gateway.leverage pool.symbol cfg.default_leverage
            else st.gateway.leverage) := by
  rcases script with ⟨lev, sspot, sperp, comp, save⟩
  cases lev with
  | false =>
    refine ⟨?_, ?_, ?_, ?_, ?_⟩ <;> simp [Executor.open_arbitrage]
  | true =>
    refine ⟨?_, ?_, ?_, ?_, ?_⟩ <;> simp [Executor.open_arbitrage, hrate]

/-- Witness for C8 (amended) on the zero-rate pool. -/
theorem open_arbitrage_rejects_nonpositive_witness :
    (Executor.open_arbitrage {} {} poolNeg 100
        { spot := Except.error "e", perp := Except.error "e" } 0).2 = none
    ∧ (Executor.open_arbitrage {} {} poolNeg 100
        { spot := Except.error "e", perp := Except.error "e" }
        0).1.gateway.log = ({} : ExecState).gateway.log :=
  ⟨(open_arbitrage_rejects_nonpositive {} {} poolNeg 100
      { spot := Except.error "e", perp := Except.error "e" } 0
      (by norm_num [poolNeg])).1,
    (open_arbitrage_rejects_nonpositive {} {} poolNeg 100
      { spot := Except.error "e", perp := Except.error "e" } 0
      (by norm_num [poolNeg])).2.2.2.1⟩

end BasisSentry
